import Mathlib

set_option autoImplicit false

namespace AuraOdoo

/-- A Python/YAML value as stored in the service and config documents of the
repository: strings, integers, booleans, `None`, lists, and insertion-ordered
dictionaries (modelled as association lists over string keys). -/
inductive Val : Type where
  | str (s : String)
  | int (n : Int)
  | bool (b : Bool)
  | null
  | list (xs : List Val)
  | dict (entries : List (String × Val))

/-- Python `type(v).__name__` for the values of `Val`. -/
def typeName : Val → String
  | Val.str _ => "str"
  | Val.int _ => "int"
  | Val.bool _ => "bool"
  | Val.null => "NoneType"
  | Val.list _ => "list"
  | Val.dict _ => "dict"

/-- Whether the value is a Python `str`. -/
def Val.isStr : Val → Bool
  | Val.str _ => true
  | _ => false

/-- Whether the value is a Python `list`. -/
def Val.isList : Val → Bool
  | Val.list _ => true
  | _ => false

/-- Whether the value is a Python `dict`. -/
def Val.isDict : Val → Bool
  | Val.dict _ => true
  | _ => false

/-- Python dictionary lookup `d[k]` (or `d.get(k)`): the value stored at the
first (unique) occurrence of the key. -/
def dictGet : List (String × Val) → String → Option Val
  | [], _ => none
  | (k, v) :: rest, key => if k = key then some v else dictGet rest key

/-- Python dictionary assignment `d[k] = v`: replaces the value in place if the
key is present (keeping its position) and appends a new entry otherwise. -/
def dictInsert : List (String × Val) → String → Val → List (String × Val)
  | [], key, val => [(key, val)]
  | (k, v) :: rest, key, val =>
    if k = key then (k, val) :: rest else (k, v) :: dictInsert rest key val

/-- Python `d.update(other)`: assigns every entry of `other` into `d` in order. -/
def dictUpdate (d : List (String × Val)) (other : List (String × Val)) : List (String × Val) :=
  other.foldl (fun acc kv => dictInsert acc kv.1 kv.2) d

/-- The keys of a dictionary, in insertion order. -/
def dictKeys (d : List (String × Val)) : List String :=
  d.map Prod.fst

/-- Deduplication of a list of strings, keeping first occurrences; used to
embed Python's `set(...)` where only membership in the result matters. -/
def listDedup : List String → List String
  | [] => []
  | x :: xs => x :: (listDedup xs).filter (fun y => y ≠ x)

/-- Errors raised by the service-builder code (`src/exceptions.py`), carrying
the same payload fields as the Python exception classes. -/
inductive SvcErr : Type where
  | invalidKey (invalid_keys : List String)
  | invalidValueType (key expected_type received_type : String)
  | invalidRestartPolicy (invalid_policy : String) (valid_policies : List String)

/-- Embedding of `BaseService` (`src/Services.py`): a service name together
with the accumulated configuration dictionary `_config`. -/
@[ext]
structure BaseService : Type where
  name : String
  config : List (String × Val)

/-- The constructor `BaseService(name)`: empty configuration. -/
def BaseService.init (name : String) : BaseService :=
  ⟨name, []⟩

/-- The class constant `BaseService.VALID_KEYS` (a set; order irrelevant). -/
def VALID_KEYS : List String :=
  ["image", "command", "ports", "environment", "volumes", "depends_on",
   "build", "container_name", "restart", "networks", "labels", "expose",
   "env_file", "entrypoint", "user", "working_dir", "healthcheck"]

/-- The class constant `BaseService.VALID_RESTART_POLICIES`. -/
def VALID_RESTART_POLICIES : List String :=
  ["no", "always", "on-failure", "unless-stopped"]

/-- The healthcheck dictionary built by `set_healthcheck` when `disable` is
false: `test` (a string is normalized to `["CMD-SHELL", test]`), `interval`,
`timeout`, `retries`, and `start_period` only when it is truthy. -/
def healthcheckVal (test : Sum String (List String)) (interval timeout : String)
    (retries : Int) (start_period : Option String) : Val :=
  let testVal : List Val :=
    match test with
    | Sum.inl s => [Val.str "CMD-SHELL", Val.str s]
    | Sum.inr xs => xs.map Val.str
  let base : List (String × Val) :=
    [("test", Val.list testVal), ("interval", Val.str interval),
     ("timeout", Val.str timeout), ("retries", Val.int retries)]
  match start_period with
  | some sp => if sp = "" then Val.dict base else Val.dict (base ++ [("start_period", Val.str sp)])
  | none => Val.dict base

/-- Embedding of `BaseService.set_healthcheck`: when `disable` is true the
stored entry is exactly the one-key dictionary, otherwise the assembled
healthcheck dictionary is stored. -/
def BaseService.set_healthcheck (svc : BaseService) (test : Sum String (List String))
    (interval timeout : String) (retries : Int) (start_period : Option String)
    (disable : Bool) : BaseService :=
  if disable then
    { svc with config := dictInsert svc.config "healthcheck" (Val.dict [("disable", Val.bool true)]) }
  else
    let hc := healthcheckVal test interval timeout retries start_period
    { svc with config := dictInsert svc.config "healthcheck" hc }

/-- Embedding of `BaseService.set_restart_policy`: rejects a policy outside
the legal set, reporting the offending value and the legal set. -/
def BaseService.set_restart_policy (svc : BaseService) (policy : String) :
    Except SvcErr BaseService :=
  if policy ∈ VALID_RESTART_POLICIES then
    Except.ok { svc with config := dictInsert svc.config "restart" (Val.str policy) }
  else
    Except.error (SvcErr.invalidRestartPolicy policy VALID_RESTART_POLICIES)

/-- Embedding of `BaseService.set_image`. -/
def BaseService.set_image (svc : BaseService) (image : String) : BaseService :=
  { svc with config := dictInsert svc.config "image" (Val.str image) }

/-- Embedding of `BaseService.set_command` (`command: str | list[str]`). -/
def BaseService.set_command (svc : BaseService) (command : Sum String (List String)) : BaseService :=
  let v : Val :=
    match command with
    | Sum.inl s => Val.str s
    | Sum.inr xs => Val.list (xs.map Val.str)
  { svc with config := dictInsert svc.config "command" v }

/-- Embedding of `BaseService.set_ports`. -/
def BaseService.set_ports (svc : BaseService) (ports : List String) : BaseService :=
  { svc with config := dictInsert svc.config "ports" (Val.list (ports.map Val.str)) }

/-- Embedding of `BaseService.set_environment` (`env: Dict[str, str]`). -/
def BaseService.set_environment (svc : BaseService) (env : List (String × String)) : BaseService :=
  let v := Val.dict (env.map (fun p => (p.1, Val.str p.2)))
  { svc with config := dictInsert svc.config "environment" v }

/-- Embedding of `BaseService.set_volumes`. -/
def BaseService.set_volumes (svc : BaseService) (volumes : List String) : BaseService :=
  { svc with config := dictInsert svc.config "volumes" (Val.list (volumes.map Val.str)) }

/-- Embedding of `BaseService.set_depends_on`. -/
def BaseService.set_depends_on (svc : BaseService) (services : List String) : BaseService :=
  { svc with config := dictInsert svc.config "depends_on" (Val.list (services.map Val.str)) }

/-- Embedding of `BaseService.to_dict`: the one-entry mapping holding the
service name and its accumulated configuration. -/
def BaseService.to_dict (svc : BaseService) : String × Val :=
  (svc.name, Val.dict svc.config)

/-- The entries of a dictionary value (the configuration carried by
`to_dict`). -/
def valDictEntries : Val → List (String × Val)
  | Val.dict d => d
  | _ => []

/-- The per-entry type check of `BaseService.from_dict`'s loop body (the
`if`/`elif` chain over the key), returning the typed-value error it raises,
if any. -/
def checkEntry (key : String) (v : Val) : Option SvcErr :=
  if key == "image" && !v.isStr then
    some (SvcErr.invalidValueType key "string" (typeName v))
  else if key == "command" && !(v.isStr || v.isList) then
    some (SvcErr.invalidValueType key "string or list" (typeName v))
  else if key == "ports" && !v.isList then
    some (SvcErr.invalidValueType key "list" (typeName v))
  else if key == "environment" && !v.isDict then
    some (SvcErr.invalidValueType key "dictionary" (typeName v))
  else if key == "volumes" && !v.isList then
    some (SvcErr.invalidValueType key "list" (typeName v))
  else if key == "depends_on" && !v.isList then
    some (SvcErr.invalidValueType key "list" (typeName v))
  else
    none

/-- The validation loop of `BaseService.from_dict`: entries are processed in
declaration order, the first typed-value violation aborts, and each passing
entry is assigned into the service configuration. -/
def setEntries (svc : BaseService) : List (String × Val) → Except SvcErr BaseService
  | [] => Except.ok svc
  | (key, v) :: rest =>
    match checkEntry key v with
    | some e => Except.error e
    | none => setEntries { svc with config := dictInsert svc.config key v } rest

/-- Embedding of `BaseService.from_dict`: all keys outside `VALID_KEYS` are
collected first and reported at once; otherwise the entries are checked and
assigned in order. -/
def BaseService.from_dict (name : String) (config : List (String × Val)) :
    Except SvcErr BaseService :=
  let invalid_keys := listDedup ((dictKeys config).filter (fun k => decide (k ∉ VALID_KEYS)))
  if invalid_keys = [] then
    setEntries (BaseService.init name) config
  else
    Except.error (SvcErr.invalidKey invalid_keys)

/-- Modelled from the spec: `set_labels` is exercised by
`tests/test_services.py` and called before `add_labels`, but its definition is
missing from `src/Services.py`; per the spec's setter list it stores the given
plain-string labels. -/
def BaseService.set_labels (svc : BaseService) (labels : List String) : BaseService :=
  { svc with config := dictInsert svc.config "labels" (Val.list (labels.map Val.str)) }

/-- The label list currently stored in the service configuration (empty when
no labels are stored). -/
def currentLabels (svc : BaseService) : List Val :=
  match dictGet svc.config "labels" with
  | some (Val.list xs) => xs
  | _ => []

/-- Modelled from the spec: `add_labels` is exercised by
`tests/test_services.py` but its definition is missing from
`src/Services.py`; per the spec and the test assertions it appends the given
labels to the currently stored label list. -/
def BaseService.add_labels (svc : BaseService) (labels : List String) : BaseService :=
  let v := Val.list (currentLabels svc ++ labels.map Val.str)
  { svc with config := dictInsert svc.config "labels" v }

/-- The fixed sequence of four traefik routing labels appended by
`add_traefik`, exactly as asserted in `tests/test_services.py`. -/
def traefikLabels (name host port_mapping : String) : List String :=
  ["traefik.enable=true",
   "traefik.http.routers." ++ name ++ ".rule=Host(`" ++ host ++ "`)",
   "traefik.http.routers." ++ name ++ ".entrypoints=web",
   "traefik.http.services." ++ name ++ ".loadbalancer.server.port=" ++ port_mapping]

/-- Modelled from the spec: `add_traefik` is called in `src/main.py` and
asserted in `tests/test_services.py` but its definition is missing from
`src/Services.py`; per the spec it appends a fixed sequence of four routing
labels binding the service's name to `host` and to `port_mapping`, with the
exact label strings taken from the repository's test assertions. -/
def BaseService.add_traefik (svc : BaseService) (host port_mapping : String) : BaseService :=
  svc.add_labels (traefikLabels svc.name host port_mapping)

/-- One application of a fluent setter of `BaseService`, with the argument
types of the corresponding Python signatures. -/
inductive SetStep : Type where
  | image (image : String)
  | command (command : Sum String (List String))
  | ports (ports : List String)
  | environment (env : List (String × String))
  | volumes (volumes : List String)
  | dependsOn (services : List String)
  | healthcheck (test : Sum String (List String)) (interval timeout : String)
      (retries : Int) (start_period : Option String) (disable : Bool)
  | restartPolicy (policy : String)
  | labels (labels : List String)
  | addLabels (labels : List String)
  | addTraefik (host port_mapping : String)

/-- Apply one setter to a service; only `set_restart_policy` can fail. -/
def applyStep (svc : BaseService) : SetStep → Except SvcErr BaseService
  | SetStep.image s => Except.ok (svc.set_image s)
  | SetStep.command c => Except.ok (svc.set_command c)
  | SetStep.ports ps => Except.ok (svc.set_ports ps)
  | SetStep.environment env => Except.ok (svc.set_environment env)
  | SetStep.volumes vs => Except.ok (svc.set_volumes vs)
  | SetStep.dependsOn ds => Except.ok (svc.set_depends_on ds)
  | SetStep.healthcheck t iv tm rt sp d => Except.ok (svc.set_healthcheck t iv tm rt sp d)
  | SetStep.restartPolicy p => svc.set_restart_policy p
  | SetStep.labels ls => Except.ok (svc.set_labels ls)
  | SetStep.addLabels ls => Except.ok (svc.add_labels ls)
  | SetStep.addTraefik h p => Except.ok (svc.add_traefik h p)

/-- Apply a sequence of setters, stopping at the first failure: this is the
meaning of a descriptor "built via the setters without error". -/
def applySteps : BaseService → List SetStep → Except SvcErr BaseService
  | svc, [] => Except.ok svc
  | svc, s :: rest =>
    match applyStep svc s with
    | Except.error e => Except.error e
    | Except.ok svc2 => applySteps svc2 rest

/-- Well-formedness of a configuration reachable through the setters: unique
keys, every key in the allow-list, and every entry passing the per-entry type
check of `from_dict`. -/
def WFConfig (cfg : List (String × Val)) : Prop :=
  (dictKeys cfg).Nodup ∧ (∀ k ∈ dictKeys cfg, k ∈ VALID_KEYS) ∧
    ∀ kv ∈ cfg, checkEntry kv.1 kv.2 = none

/-- Errors raised by the compose-document operations (`src/exceptions.py`). -/
inductive ComposeErr : Type where
  | alreadyExists (service_name : String)
  | notFound (service_name : String)

/-- State of a `ComposeManager`: the in-memory document `_config` and the
document last persisted to the compose file. -/
structure ComposeState : Type where
  doc : List (String × Val)
  file : List (String × Val)

/-- Embedding of `ComposeManager._ensure_services_dict`: inserts an empty
`services` mapping when the key is absent. -/
def ensure_services (doc : List (String × Val)) : List (String × Val) :=
  match dictGet doc "services" with
  | some _ => doc
  | none => dictInsert doc "services" (Val.dict [])

/-- The entries of the document's `services` mapping (the compose documents
handled by the manager store a dictionary there). -/
def getServices (doc : List (String × Val)) : List (String × Val) :=
  match dictGet doc "services" with
  | some (Val.dict d) => d
  | _ => []

/-- The document obtained by merging the one-entry descriptor map of `svc`
into the (ensured) `services` mapping of the in-memory document; this is the
document persisted by `add_service` and `update_service`. -/
def composeNewDoc (st : ComposeState) (svc : BaseService) : List (String × Val) :=
  dictInsert (ensure_services st.doc) "services"
    (Val.dict (dictInsert (getServices (ensure_services st.doc)) svc.name (Val.dict svc.config)))

/-- Embedding of `ComposeManager.add_service`: ensure the `services` key,
fail with an already-exists error when the service name is present (the error
carries the state after the failed call), otherwise merge the one-entry
descriptor map and persist the full document. -/
def ComposeManager.add_service (st : ComposeState) (svc : BaseService) :
    Except (ComposeErr × ComposeState) ComposeState :=
  if (dictGet (getServices (ensure_services st.doc)) svc.name).isSome then
    Except.error (ComposeErr.alreadyExists svc.name, { st with doc := ensure_services st.doc })
  else
    Except.ok { doc := composeNewDoc st svc, file := composeNewDoc st svc }

/-- Embedding of `ComposeManager.update_service`: ensure the `services` key,
fail with a not-found error when the service name is absent, otherwise
overwrite that entry and persist the full document. -/
def ComposeManager.update_service (st : ComposeState) (svc : BaseService) :
    Except (ComposeErr × ComposeState) ComposeState :=
  if (dictGet (getServices (ensure_services st.doc)) svc.name).isSome then
    Except.ok { doc := composeNewDoc st svc, file := composeNewDoc st svc }
  else
    Except.error (ComposeErr.notFound svc.name, { st with doc := ensure_services st.doc })

/-- Outcome of probing one orchestrator CLI with `subprocess.run(..., check=True)`:
it either succeeds, exits non-zero (`CalledProcessError`), or the binary is
missing (`FileNotFoundError`). -/
inductive ProbeResult : Type where
  | success
  | calledProcessError
  | fileNotFoundError

/-- Result of `_detect_compose_command`: a detected command prefix, the
dedicated `DockerNotFoundError`, or an exception escaping the function
uncaught. -/
inductive DetectResult : Type where
  | ok (compose_command : List String)
  | dockerNotFound
  | uncaughtFileNotFound

/-- Embedding of `ComposeManager._detect_compose_command`
(`src/ComposeManager.py`): the modern probe is tried first under an `except`
that catches only `CalledProcessError`; the legacy probe is tried under an
`except` catching both `CalledProcessError` and `FileNotFoundError`, raising
`DockerNotFoundError` for either. A `FileNotFoundError` from the modern probe
is not caught and escapes. -/
def detect_compose_command (modern legacy : ProbeResult) : DetectResult :=
  match modern with
  | ProbeResult.success => DetectResult.ok ["docker", "compose"]
  | ProbeResult.fileNotFoundError => DetectResult.uncaughtFileNotFound
  | ProbeResult.calledProcessError =>
    match legacy with
    | ProbeResult.success => DetectResult.ok ["docker-compose"]
    | _ => DetectResult.dockerNotFound

/-- The master database credentials record (`src/configs/DatabaseConfig.py`). -/
structure DatabaseConfig : Type where
  name : String
  user : String
  password : String

/-- The config document written by `ConfigManager` (`setup.yml`): version,
hosts, master db credentials, and the list of stored environment records. -/
structure SetupConfig : Type where
  version : String
  hosts : List String
  db : DatabaseConfig
  services : List (String × String)

/-- Embedding of `ConfigManager.create` (`src/ConfigManager.py`): fails when a
file already exists at the path, otherwise writes the fresh document with the
given version, hosts, db credentials and an empty services list. -/
def ConfigManager.create (path_exists : Bool) (version : String) (hosts : List String)
    (db_config : DatabaseConfig) : Except String SetupConfig :=
  if path_exists then
    Except.error "Config file already exists."
  else
    Except.ok { version := version, hosts := hosts, db := db_config, services := [] }

/-- Embedding of `ConfigManager.set_hosts`: rejects an empty list, otherwise
replaces the host list and persists. -/
def ConfigManager.set_hosts (c : SetupConfig) (hosts : List String) : Except String SetupConfig :=
  if hosts = [] then
    Except.error "There must be at least one host."
  else
    Except.ok { c with hosts := hosts }

/-- Embedding of `ConfigManager.add_host`: a no-op when the host is already
present, otherwise appends it and persists. -/
def ConfigManager.add_host (c : SetupConfig) (host : String) : SetupConfig :=
  if host ∈ c.hosts then c else { c with hosts := c.hosts ++ [host] }

/-- Embedding of `ConfigManager.remove_host`: a no-op when the host is absent;
fails when it is the only remaining host; otherwise removes its first
occurrence and persists. -/
def ConfigManager.remove_host (c : SetupConfig) (host : String) : Except String SetupConfig :=
  if host ∈ c.hosts then
    if c.hosts.length > 1 then
      Except.ok { c with hosts := c.hosts.erase host }
    else
      Except.error "Cannot remove the only remaining host."
  else
    Except.ok c

/-- One step of the host loop of `validate_host` (`src/click_validators.py`):
resolve via DNS (an unresolvable host reports "Host does not exist."), treat a
falsy resolution as a DNS problem, and require the resolved address to equal
the machine's public address; the first failing host's message is returned. -/
def checkHosts (dns : String → Option String) (publicIp : String) :
    List String → Option String
  | [] => none
  | host :: rest =>
    match dns host with
    | none => some "Host does not exist."
    | some ip =>
      if ip = "" then
        some "Host does not resolve to an IP address or there is a other error related error with the DNS."
      else if ip ≠ publicIp then
        some "The IP address associated with the host does not match the public IP address."
      else
        checkHosts dns publicIp rest

/-- Embedding of `validate_host` (`src/click_validators.py`), parameterized by
the DNS resolution function and the machine's public address: the exact tuple
`('localhost',)` is returned without any check; otherwise every host in the
tuple must resolve and match the public address. -/
def validate_host (dns : String → Option String) (publicIp : String)
    (value : List String) : Except String (List String) :=
  if value = ["localhost"] then
    Except.ok value
  else
    match checkHosts dns publicIp value with
    | some msg => Except.error msg
    | none => Except.ok value

/-- Whether `pat` is a prefix of `text`, on character lists. -/
def charsPrefix : List Char → List Char → Bool
  | [], _ => true
  | _ :: _, [] => false
  | c :: cs, d :: ds => c == d && charsPrefix cs ds

/-- Whether `pat` occurs contiguously inside `text`, on character lists. -/
def charsSub : List Char → List Char → Bool
  | pat, [] => charsPrefix pat []
  | pat, d :: rest => charsPrefix pat (d :: rest) || charsSub pat rest

/-- Whether the string `pat` occurs inside the string `s` (used to state that
a routing label references a name, a host or a port mapping). -/
def strMentions (s pat : String) : Bool :=
  charsSub pat.data s.data

/-- Python `s.endswith(suffix)`, on character lists. -/
def strEndsWith (s suffix : String) : Bool :=
  charsPrefix suffix.data.reverse s.data.reverse

/-- The external `pg_dump` invocation assembled by
`DatabaseManager.create_backup`: the command line, the password passed to the
child process via `PGPASSWORD`, and the returned output path. -/
structure BackupInvocation : Type where
  cmd : List String
  pgpassword : String
  returnedPath : String

/-- Connection settings held by a `DatabaseManager` (`src/DatabaseManager.py`). -/
structure DatabaseManager : Type where
  host : String
  port : Int
  user : String
  password : String
  database : String

/-- Embedding of `DatabaseManager.create_backup`, parameterized by the current
timestamp string: a path without the `.sql` suffix gets `_<timestamp>.sql`
appended, a path with the suffix is used unchanged; `pg_dump` targets the
configured connection and writes to the final path, which is returned. -/
def DatabaseManager.create_backup (m : DatabaseManager) (timestamp : String)
    (output_file : String) : BackupInvocation :=
  let final := if strEndsWith output_file ".sql" then output_file
               else output_file ++ "_" ++ timestamp ++ ".sql"
  { cmd := ["pg_dump", "--host=" ++ m.host, "--port=" ++ toString m.port,
            "--username=" ++ m.user, "--dbname=" ++ m.database, "--format=p",
            "--file=" ++ final],
    pgpassword := m.password,
    returnedPath := final }

theorem mem_listDedup (y : String) (l : List String) : y ∈ listDedup l ↔ y ∈ l := by
  induction l with
  | nil => simp [listDedup]
  | cons x xs ih =>
    by_cases hyx : y = x
    · subst hyx
      simp [listDedup]
    · simp [listDedup, List.mem_filter, hyx, ih]

theorem dictGet_dictInsert (d : List (String × Val)) (k : String) (v : Val) (key : String) :
    dictGet (dictInsert d k v) key = if key = k then some v else dictGet d key := by
  induction d with
  | nil =>
    by_cases h : key = k
    · simp [dictInsert, dictGet, h]
    · simp [dictInsert, dictGet, h, Ne.symm h]
  | cons kv rest ih =>
    obtain ⟨k0, v0⟩ := kv
    by_cases h0 : k0 = k
    · subst h0
      by_cases h : key = k0
      · subst h
        simp [dictInsert, dictGet]
      · simp [dictInsert, dictGet, h, Ne.symm h]
    · by_cases h : key = k0
      · subst h
        simp [dictInsert, dictGet, h0, Ne.symm h0, ih]
      · simp [dictInsert, dictGet, h0, Ne.symm h, ih]

theorem dictInsert_of_get_none (d : List (String × Val)) (k : String) (v : Val)
    (h : dictGet d k = none) : dictInsert d k v = d ++ [(k, v)] := by
  induction d with
  | nil => simp [dictInsert]
  | cons kv rest ih =>
    obtain ⟨k0, v0⟩ := kv
    by_cases h0 : k0 = k
    · subst h0
      simp [dictGet] at h
    · simp [dictGet, h0] at h
      simp [dictInsert, h0, ih h]

theorem dictKeys_dictInsert_of_get_some (d : List (String × Val)) (k : String) (v : Val)
    (h : (dictGet d k).isSome) : dictKeys (dictInsert d k v) = dictKeys d := by
  induction d with
  | nil => simp [dictGet] at h
  | cons kv rest ih =>
    obtain ⟨k0, v0⟩ := kv
    by_cases h0 : k0 = k
    · subst h0
      simp [dictInsert, dictKeys]
    · simp [dictGet, h0] at h
      simp [dictInsert, dictKeys, h0] at ih ⊢
      exact ih h

theorem dictInsert_dictInsert_same (d : List (String × Val)) (k : String) (v : Val) :
    dictInsert (dictInsert d k v) k v = dictInsert d k v := by
  induction d with
  | nil => simp [dictInsert]
  | cons kv rest ih =>
    obtain ⟨k0, v0⟩ := kv
    by_cases h0 : k0 = k
    · subst h0
      simp [dictInsert]
    · simp [dictInsert, h0, ih]

theorem dictGet_eq_none_iff (d : List (String × Val)) (k : String) :
    dictGet d k = none ↔ k ∉ dictKeys d := by
  induction d with
  | nil => simp [dictGet, dictKeys]
  | cons kv rest ih =>
    obtain ⟨k0, v0⟩ := kv
    by_cases h0 : k0 = k
    · subst h0
      simp [dictGet, dictKeys]
    · simp [dictGet, dictKeys, h0, Ne.symm h0, ih]

theorem dictKeys_dictInsert_of_get_none (d : List (String × Val)) (k : String) (v : Val)
    (h : dictGet d k = none) : dictKeys (dictInsert d k v) = dictKeys d ++ [k] := by
  rw [dictInsert_of_get_none d k v h]
  simp [dictKeys]

theorem mem_dictInsert (d : List (String × Val)) (k : String) (v : Val) (kv : String × Val)
    (h : kv ∈ dictInsert d k v) : kv = (k, v) ∨ kv ∈ d := by
  induction d with
  | nil =>
    simp [dictInsert] at h
    exact Or.inl h
  | cons hd rest ih =>
    obtain ⟨k0, v0⟩ := hd
    by_cases h0 : k0 = k
    · subst h0
      simp [dictInsert] at h
      rcases h with h1 | h2
      · exact Or.inl (by simp [h1])
      · exact Or.inr (List.mem_cons_of_mem _ h2)
    · simp [dictInsert, h0] at h
      rcases h with h1 | h2
      · exact Or.inr (by simp [h1])
      · rcases ih h2 with h3 | h4
        · exact Or.inl h3
        · exact Or.inr (List.mem_cons_of_mem _ h4)

theorem dictGet_append_none (d : List (String × Val)) (k k2 : String) (v : Val)
    (h1 : dictGet d k2 = none) (h2 : k ≠ k2) :
    dictGet (d ++ [(k, v)]) k2 = none := by
  induction d with
  | nil => simp [dictGet, h2]
  | cons hd rest ih =>
    obtain ⟨k0, v0⟩ := hd
    by_cases h0 : k0 = k2
    · subst h0
      simp [dictGet] at h1
    · simp [dictGet, h0] at h1 ⊢
      exact ih h1

theorem listDedup_eq_nil_iff (l : List String) : listDedup l = [] ↔ l = [] := by
  cases l <;> simp [listDedup]

theorem WFConfig_insert (cfg : List (String × Val)) (k : String) (v : Val)
    (hwf : WFConfig cfg) (hk : k ∈ VALID_KEYS) (hc : checkEntry k v = none) :
    WFConfig (dictInsert cfg k v) := by
  obtain ⟨hnodup, hkeys, hok⟩ := hwf
  cases hget : dictGet cfg k with
  | some v0 =>
    have hkeq : dictKeys (dictInsert cfg k v) = dictKeys cfg :=
      dictKeys_dictInsert_of_get_some cfg k v (by simp [hget])
    refine ⟨by rw [hkeq]; exact hnodup, by rw [hkeq]; exact hkeys, ?_⟩
    intro kv hkv
    rcases mem_dictInsert cfg k v kv hkv with h1 | h2
    · rw [h1]
      exact hc
    · exact hok kv h2
  | none =>
    have hkeq : dictKeys (dictInsert cfg k v) = dictKeys cfg ++ [k] :=
      dictKeys_dictInsert_of_get_none cfg k v hget
    have hnotmem : k ∉ dictKeys cfg := (dictGet_eq_none_iff cfg k).mp hget
    refine ⟨?_, ?_, ?_⟩
    · rw [hkeq]
      simp [List.nodup_append, hnodup, hnotmem]
    · intro k2 hk2
      rw [hkeq] at hk2
      rcases List.mem_append.mp hk2 with h1 | h2
      · exact hkeys k2 h1
      · simp at h2
        subst h2
        exact hk
    · intro kv hkv
      rcases mem_dictInsert cfg k v kv hkv with h1 | h2
      · rw [h1]
        exact hc
      · exact hok kv h2

theorem WFConfig_applyStep (svc : BaseService) (s : SetStep) (svc2 : BaseService)
    (hwf : WFConfig svc.config) (h : applyStep svc s = Except.ok svc2) :
    WFConfig svc2.config := by
  cases s with
  | image s =>
    simp only [applyStep, Except.ok.injEq] at h
    subst h
    exact WFConfig_insert _ _ _ hwf (by decide) rfl
  | command c =>
    simp only [applyStep, Except.ok.injEq] at h
    subst h
    cases c with
    | inl s => exact WFConfig_insert _ _ _ hwf (by decide) rfl
    | inr xs => exact WFConfig_insert _ _ _ hwf (by decide) rfl
  | ports ps =>
    simp only [applyStep, Except.ok.injEq] at h
    subst h
    exact WFConfig_insert _ _ _ hwf (by decide) rfl
  | environment env =>
    simp only [applyStep, Except.ok.injEq] at h
    subst h
    exact WFConfig_insert _ _ _ hwf (by decide) rfl
  | volumes vs =>
    simp only [applyStep, Except.ok.injEq] at h
    subst h
    exact WFConfig_insert _ _ _ hwf (by decide) rfl
  | dependsOn ds =>
    simp only [applyStep, Except.ok.injEq] at h
    subst h
    exact WFConfig_insert _ _ _ hwf (by decide) rfl
  | healthcheck t iv tm rt sp d =>
    simp only [applyStep, Except.ok.injEq] at h
    subst h
    cases d with
    | true => exact WFConfig_insert _ _ _ hwf (by decide) rfl
    | false => exact WFConfig_insert _ _ _ hwf (by decide) rfl
  | restartPolicy p =>
    simp only [applyStep, BaseService.set_restart_policy] at h
    split at h
    · simp only [Except.ok.injEq] at h
      subst h
      exact WFConfig_insert _ _ _ hwf (by decide) rfl
    · cases h
  | labels ls =>
    simp only [applyStep, Except.ok.injEq] at h
    subst h
    exact WFConfig_insert _ _ _ hwf (by decide) rfl
  | addLabels ls =>
    simp only [applyStep, Except.ok.injEq] at h
    subst h
    exact WFConfig_insert svc.config "labels"
      (Val.list (currentLabels svc ++ ls.map Val.str)) hwf (by decide) rfl
  | addTraefik hst pm =>
    simp only [applyStep, Except.ok.injEq] at h
    subst h
    exact WFConfig_insert svc.config "labels"
      (Val.list (currentLabels svc ++ (traefikLabels svc.name hst pm).map Val.str)) hwf
      (by decide) rfl

theorem WFConfig_applySteps (steps : List SetStep) (svc svc2 : BaseService)
    (hwf : WFConfig svc.config) (h : applySteps svc steps = Except.ok svc2) :
    WFConfig svc2.config := by
  induction steps generalizing svc with
  | nil =>
    simp only [applySteps, Except.ok.injEq] at h
    subst h
    exact hwf
  | cons s rest ih =>
    simp only [applySteps] at h
    cases happ : applyStep svc s with
    | error e =>
      rw [happ] at h
      cases h
    | ok svcm =>
      rw [happ] at h
      exact ih svcm (WFConfig_applyStep svc s svcm hwf happ) h

theorem setEntries_ok (entries : List (String × Val)) (svc : BaseService)
    (hok : ∀ kv ∈ entries, checkEntry kv.1 kv.2 = none)
    (hdisj : ∀ k ∈ dictKeys entries, dictGet svc.config k = none)
    (hnodup : (dictKeys entries).Nodup) :
    setEntries svc entries = Except.ok ⟨svc.name, svc.config ++ entries⟩ := by
  induction entries generalizing svc with
  | nil => simp [setEntries]
  | cons kv rest ih =>
    obtain ⟨k, v⟩ := kv
    have hk : checkEntry k v = none := hok (k, v) (List.mem_cons_self _ _)
    have hget : dictGet svc.config k = none := hdisj k (by simp [dictKeys])
    have hkeys : dictKeys ((k, v) :: rest) = k :: dictKeys rest := by simp [dictKeys]
    rw [hkeys] at hdisj hnodup
    simp only [setEntries, hk]
    have hins : dictInsert svc.config k v = svc.config ++ [(k, v)] :=
      dictInsert_of_get_none svc.config k v hget
    have ihres := ih { svc with config := dictInsert svc.config k v }
      (fun kv2 h2 => hok kv2 (List.mem_cons_of_mem _ h2))
      (by
        intro k2 hk2
        have hne : k ≠ k2 := by
          rintro rfl
          exact (List.nodup_cons.mp hnodup).1 hk2
        have hn2 : dictGet svc.config k2 = none := hdisj k2 (List.mem_cons_of_mem _ hk2)
        rw [hins]
        exact dictGet_append_none svc.config k k2 v hn2 hne)
      (List.nodup_cons.mp hnodup).2
    rw [ihres, hins]
    simp

theorem setEntries_error (entries : List (String × Val)) (svc : BaseService)
    (kv : String × Val) (e : SvcErr)
    (hfind : entries.find? (fun p => (checkEntry p.1 p.2).isSome) = some kv)
    (hch : checkEntry kv.1 kv.2 = some e) :
    setEntries svc entries = Except.error e := by
  induction entries generalizing svc with
  | nil => simp [List.find?] at hfind
  | cons hd rest ih =>
    obtain ⟨k, v⟩ := hd
    by_cases hp : (checkEntry k v).isSome
    · simp only [List.find?, hp] at hfind
      simp only [Option.some.injEq] at hfind
      subst hfind
      simp only [setEntries]
      rw [hch]
    · have hn : checkEntry k v = none := Option.not_isSome_iff_eq_none.mp hp
      simp [List.find?, hn] at hfind
      simp only [setEntries, hn]
      exact ih _ hfind

theorem checkEntry_shape (k : String) (v : Val) (e : SvcErr)
    (h : checkEntry k v = some e) :
    ∃ exp, e = SvcErr.invalidValueType k exp (typeName v) := by
  unfold checkEntry at h
  split_ifs at h
  all_goals first
    | exact Option.noConfusion h
    | (injection h with h2; exact ⟨_, h2.symm⟩)

theorem from_dict_of_WF (name : String) (cfg : List (String × Val)) (hwf : WFConfig cfg) :
    BaseService.from_dict name cfg = Except.ok ⟨name, cfg⟩ := by
  obtain ⟨hnodup, hkeys, hok⟩ := hwf
  have hfilter : (dictKeys cfg).filter (fun k => decide (k ∉ VALID_KEYS)) = [] := by
    rw [List.filter_eq_nil_iff]
    intro a ha
    simp [hkeys a ha]
  unfold BaseService.from_dict
  rw [hfilter]
  simp only [listDedup, if_pos rfl]
  have := setEntries_ok cfg (BaseService.init name) hok (fun k _ => rfl) hnodup
  rw [this]
  simp [BaseService.init]

theorem from_dict_eq_setEntries (name : String) (config : List (String × Val))
    (hvalid : ∀ k ∈ dictKeys config, k ∈ VALID_KEYS) :
    BaseService.from_dict name config = setEntries (BaseService.init name) config := by
  have hfilter : (dictKeys config).filter (fun k => decide (k ∉ VALID_KEYS)) = [] := by
    rw [List.filter_eq_nil_iff]
    intro a ha
    simp [hvalid a ha]
  unfold BaseService.from_dict
  rw [hfilter]
  simp [listDedup]

theorem from_dict_invalid_keys (name : String) (config : List (String × Val))
    (h : ∃ k, k ∈ dictKeys config ∧ k ∉ VALID_KEYS) :
    ∃ ks, BaseService.from_dict name config = Except.error (SvcErr.invalidKey ks) ∧
      ∀ k, k ∈ ks ↔ (k ∈ dictKeys config ∧ k ∉ VALID_KEYS) := by
  obtain ⟨k0, hk0mem, hk0inv⟩ := h
  refine ⟨listDedup ((dictKeys config).filter (fun k => decide (k ∉ VALID_KEYS))), ?_, ?_⟩
  · unfold BaseService.from_dict
    rw [if_neg]
    intro hnil
    rw [listDedup_eq_nil_iff] at hnil
    have : k0 ∈ (dictKeys config).filter (fun k => decide (k ∉ VALID_KEYS)) := by
      rw [List.mem_filter]
      exact ⟨hk0mem, by simpa using hk0inv⟩
    rw [hnil] at this
    simp at this
  · intro k
    rw [mem_listDedup, List.mem_filter]
    simp

theorem ensure_services_of_get_some (doc : List (String × Val))
    (h : (dictGet doc "services").isSome) : ensure_services doc = doc := by
  unfold ensure_services
  obtain ⟨v, hv⟩ := Option.isSome_iff_exists.mp h
  rw [hv]

theorem getServices_dictInsert (doc : List (String × Val)) (d : List (String × Val)) :
    getServices (dictInsert doc "services" (Val.dict d)) = d := by
  unfold getServices
  rw [dictGet_dictInsert]
  simp

theorem services_key_of_mem (doc : List (String × Val)) (k : String)
    (h : (dictGet (getServices doc) k).isSome) :
    dictGet doc "services" = some (Val.dict (getServices doc)) := by
  unfold getServices at h ⊢
  cases hget : dictGet doc "services" with
  | none =>
    rw [hget] at h
    simp [dictGet] at h
  | some v =>
    rw [hget] at h
    cases v with
    | dict d => rfl
    | str s => simp [dictGet] at h
    | int n => simp [dictGet] at h
    | bool b => simp [dictGet] at h
    | null => simp [dictGet] at h
    | list xs => simp [dictGet] at h

theorem checkHosts_eq_none_iff (dns : String → Option String) (pub : String)
    (hs : List String) :
    checkHosts dns pub hs = none ↔
      ∀ h ∈ hs, ∃ ip, dns h = some ip ∧ ip ≠ "" ∧ ip = pub := by
  induction hs with
  | nil => simp [checkHosts]
  | cons h0 rest ih =>
    cases hd : dns h0 with
    | none => simp [checkHosts, hd]
    | some ip =>
      by_cases hip : ip = ""
      · subst hip
        constructor
        · intro hcontra
          simp [checkHosts, hd] at hcontra
        · intro hall
          exfalso
          obtain ⟨ip2, hip2, hne, _⟩ := hall h0 (List.mem_cons_self _ _)
          rw [hd] at hip2
          exact hne (Option.some.inj hip2).symm
      · by_cases hpub : ip = pub
        · subst hpub
          simp [checkHosts, hd, hip, ih]
        · simp [checkHosts, hd, hip, hpub]

theorem charsPrefix_append (p ys : List Char) : charsPrefix p (p ++ ys) = true := by
  induction p with
  | nil => simp [charsPrefix]
  | cons c cs ih => simp [charsPrefix, ih]

theorem charsSub_append (p xs ys : List Char) : charsSub p (xs ++ (p ++ ys)) = true := by
  induction xs with
  | nil =>
    rw [List.nil_append]
    cases hp : p ++ ys with
    | nil =>
      have hpn : p = [] := (List.append_eq_nil.mp hp).1
      subst hpn
      simp [charsSub, charsPrefix]
    | cons d rest =>
      have hpre : charsPrefix p (d :: rest) = true := by
        rw [← hp]
        exact charsPrefix_append p ys
      simp [charsSub, hpre]
  | cons x xs2 ih =>
    simp only [List.cons_append, charsSub, List.append_eq, ih, Bool.or_true]

theorem strMentions_parts (s pat : String) (xs ys : List Char)
    (h : s.data = xs ++ (pat.data ++ ys)) : strMentions s pat = true := by
  unfold strMentions
  rw [h]
  exact charsSub_append pat.data xs ys

theorem getServices_ensure (doc : List (String × Val))
    (hwf : dictGet doc "services" = none ∨ ∃ d, dictGet doc "services" = some (Val.dict d)) :
    getServices (ensure_services doc) = getServices doc := by
  rcases hwf with h | ⟨d, h⟩
  · have h1 : ensure_services doc = dictInsert doc "services" (Val.dict []) := by
      unfold ensure_services
      rw [h]
    rw [h1, getServices_dictInsert]
    unfold getServices
    rw [h]
  · unfold ensure_services
    rw [h]

/-- C2: when the modern probe (`docker compose version`) raises
`FileNotFoundError` because the `docker` binary is missing, detection does not
fall back to the legacy probe and does not raise the dedicated not-found
error: the exception escapes uncaught, even when the legacy probe would have
succeeded. This contradicts the claim (and the function's own docstring,
which promises `DockerNotFoundError` whenever neither CLI is found); the
fallback and the not-found error behave as claimed only for the non-zero-exit
failure mode, as the remaining conjuncts record. -/
theorem C2_detect_uncaught_file_not_found :
    detect_compose_command ProbeResult.fileNotFoundError ProbeResult.success
      = DetectResult.uncaughtFileNotFound ∧
    detect_compose_command ProbeResult.fileNotFoundError ProbeResult.calledProcessError
      = DetectResult.uncaughtFileNotFound ∧
    detect_compose_command ProbeResult.calledProcessError ProbeResult.success
      = DetectResult.ok ["docker-compose"] ∧
    detect_compose_command ProbeResult.calledProcessError ProbeResult.calledProcessError
      = DetectResult.dockerNotFound ∧
    detect_compose_command ProbeResult.calledProcessError ProbeResult.fileNotFoundError
      = DetectResult.dockerNotFound :=
  ⟨rfl, rfl, rfl, rfl, rfl⟩

/-- C3: counterexample — `ConfigManager.create` performs no non-emptiness
check on `hosts`: called with an empty host list (and no pre-existing file at
the path) it succeeds, and the created document's host list is empty, so not
every document produced by the manager contains at least one hostname. -/
theorem C3_counterexample :
    ConfigManager.create false "18.0" [] (DatabaseConfig.mk "master" "master" "pw")
      = Except.ok (SetupConfig.mk "18.0" [] (DatabaseConfig.mk "master" "master" "pw") []) ∧
    (SetupConfig.mk "18.0" [] (DatabaseConfig.mk "master" "master" "pw") []).hosts = [] :=
  ⟨rfl, rfl⟩

/-- C3 (amended): when `create` is called with a non-empty host list the
created document has a non-empty host list, and every host operation that
succeeds preserves non-emptiness of the stored host list: `set_hosts` rejects
the empty list, `add_host` only appends, and `remove_host` refuses to drop
the last remaining host. -/
theorem C3_hosts_nonempty_invariant :
    (∀ pe version hosts db c2, hosts ≠ ([] : List String) →
      ConfigManager.create pe version hosts db = Except.ok c2 → c2.hosts ≠ []) ∧
    (∀ c hosts c2, ConfigManager.set_hosts c hosts = Except.ok c2 → c2.hosts ≠ []) ∧
    (∀ c host, c.hosts ≠ [] → (ConfigManager.add_host c host).hosts ≠ []) ∧
    (∀ c host c2, c.hosts ≠ [] →
      ConfigManager.remove_host c host = Except.ok c2 → c2.hosts ≠ []) := by
  refine ⟨?_, ?_, ?_, ?_⟩
  · intro pe version hosts db c2 hne hok
    cases pe with
    | true => simp [ConfigManager.create] at hok
    | false =>
      simp [ConfigManager.create] at hok
      rw [← hok]
      exact hne
  · intro c hosts c2 hok
    unfold ConfigManager.set_hosts at hok
    split at hok
    · cases hok
    · simp only [Except.ok.injEq] at hok
      rw [← hok]
      assumption
  · intro c host hne
    unfold ConfigManager.add_host
    split
    · exact hne
    · simp
  · intro c host c2 hne hok
    unfold ConfigManager.remove_host at hok
    split at hok
    · split at hok
      · simp only [Except.ok.injEq] at hok
        rw [← hok]
        have hmem : host ∈ c.hosts := by assumption
        have hlen : 1 < c.hosts.length := by assumption
        have herase : (c.hosts.erase host).length = c.hosts.length - 1 :=
          List.length_erase_of_mem hmem
        have hpos : 0 < (c.hosts.erase host).length := by omega
        exact List.length_pos.mp hpos
      · cases hok
    · simp only [Except.ok.injEq] at hok
      rw [← hok]
      exact hne

/-- C3 (witness): the amended invariant applied to concrete inputs — a
creation with one host yields a non-empty host list, and removing an absent
host from a one-host document keeps the host list non-empty. -/
theorem C3_hosts_nonempty_witness :
    (["a.example.com"] ≠ ([] : List String)) ∧
    (ConfigManager.create false "18.0" ["a.example.com"]
        (DatabaseConfig.mk "master" "master" "pw")
      = Except.ok (SetupConfig.mk "18.0" ["a.example.com"]
          (DatabaseConfig.mk "master" "master" "pw") [])) ∧
    (SetupConfig.mk "18.0" ["a.example.com"]
        (DatabaseConfig.mk "master" "master" "pw") []).hosts ≠ [] := by
  refine ⟨by simp, rfl, ?_⟩
  exact C3_hosts_nonempty_invariant.1 false "18.0" ["a.example.com"]
    (DatabaseConfig.mk "master" "master" "pw")
    (SetupConfig.mk "18.0" ["a.example.com"] (DatabaseConfig.mk "master" "master" "pw") [])
    (by simp) rfl

/-- C9: `create_backup` appends `_<timestamp>.sql` to an output path lacking
the `.sql` dump suffix, uses a path already carrying the suffix unchanged,
returns the final output path in both cases, and hands exactly that path to
`pg_dump` through its `--file=` flag. -/
theorem C9_create_backup_path (m : DatabaseManager) (timestamp output_file : String) :
    (strEndsWith output_file ".sql" = false →
      (m.create_backup timestamp output_file).returnedPath
        = output_file ++ "_" ++ timestamp ++ ".sql") ∧
    (strEndsWith output_file ".sql" = true →
      (m.create_backup timestamp output_file).returnedPath = output_file) ∧
    ("--file=" ++ (m.create_backup timestamp output_file).returnedPath)
      ∈ (m.create_backup timestamp output_file).cmd := by
  unfold DatabaseManager.create_backup
  cases h : strEndsWith output_file ".sql" with
  | false => simp [h]
  | true => simp [h]

/-- C9 (witness): a path without the suffix gets the timestamp and suffix
appended, a path with the suffix is returned unchanged. -/
theorem C9_create_backup_path_witness :
    (strEndsWith "backup" ".sql" = false) ∧
    ((DatabaseManager.mk "localhost" 5432 "postgres" "pw" "postgres").create_backup
        "20260101" "backup").returnedPath = "backup" ++ "_" ++ "20260101" ++ ".sql" ∧
    (strEndsWith "dump.sql" ".sql" = true) ∧
    ((DatabaseManager.mk "localhost" 5432 "postgres" "pw" "postgres").create_backup
        "20260101" "dump.sql").returnedPath = "dump.sql" :=
  ⟨rfl,
   (C9_create_backup_path (DatabaseManager.mk "localhost" 5432 "postgres" "pw" "postgres")
     "20260101" "backup").1 rfl,
   rfl,
   (C9_create_backup_path (DatabaseManager.mk "localhost" 5432 "postgres" "pw" "postgres")
     "20260101" "dump.sql").2.1 rfl⟩

/-- C7: with `disable` true, `set_healthcheck` stores exactly the one-key
mapping `{disable: true}` under `healthcheck`, regardless of the other
arguments; the rest of the configuration is untouched; the operation is
idempotent; and the resulting configuration mapping does not depend on the
previously stored healthcheck state. -/
theorem C7_set_healthcheck_disable (svc : BaseService) (test : Sum String (List String))
    (interval timeout : String) (retries : Int) (start_period : Option String) :
    (svc.set_healthcheck test interval timeout retries start_period true).config
      = dictInsert svc.config "healthcheck" (Val.dict [("disable", Val.bool true)]) ∧
    dictGet (svc.set_healthcheck test interval timeout retries start_period true).config
        "healthcheck" = some (Val.dict [("disable", Val.bool true)]) ∧
    (∀ k, k ≠ "healthcheck" →
      dictGet (svc.set_healthcheck test interval timeout retries start_period true).config k
        = dictGet svc.config k) ∧
    (∀ test2 interval2 timeout2 retries2 sp2,
      (svc.set_healthcheck test interval timeout retries start_period true).set_healthcheck
          test2 interval2 timeout2 retries2 sp2 true
        = svc.set_healthcheck test interval timeout retries start_period true) ∧
    (∀ (svc2 : BaseService) (test2 : Sum String (List String))
        (interval2 timeout2 : String) (retries2 : Int) (sp2 : Option String),
      (∀ k, k ≠ "healthcheck" → dictGet svc2.config k = dictGet svc.config k) →
      ∀ k, dictGet ((svc2.set_healthcheck test2 interval2 timeout2 retries2 sp2 true).config) k
        = dictGet ((svc.set_healthcheck test interval timeout retries start_period true).config) k) := by
  refine ⟨rfl, ?_, ?_, ?_, ?_⟩
  · show dictGet (dictInsert svc.config "healthcheck" (Val.dict [("disable", Val.bool true)]))
        "healthcheck" = some (Val.dict [("disable", Val.bool true)])
    rw [dictGet_dictInsert]
    simp
  · intro k hk
    show dictGet (dictInsert svc.config "healthcheck" (Val.dict [("disable", Val.bool true)])) k
        = dictGet svc.config k
    rw [dictGet_dictInsert]
    simp [hk]
  · intro test2 interval2 timeout2 retries2 sp2
    apply BaseService.ext
    · rfl
    · exact dictInsert_dictInsert_same svc.config "healthcheck" (Val.dict [("disable", Val.bool true)])
  · intro svc2 test2 interval2 timeout2 retries2 sp2 hcfg k
    show dictGet (dictInsert svc2.config "healthcheck" (Val.dict [("disable", Val.bool true)])) k
        = dictGet (dictInsert svc.config "healthcheck" (Val.dict [("disable", Val.bool true)])) k
    rw [dictGet_dictInsert, dictGet_dictInsert]
    by_cases hk : k = "healthcheck"
    · simp [hk]
    · simp only [hk, if_false]
      exact hcfg k hk

/-- C7 (witness): disabling the healthcheck on a service that already stores
a full healthcheck leaves exactly `{disable: true}` and preserves the image
entry. -/
theorem C7_set_healthcheck_disable_witness :
    dictGet (((BaseService.init "db").set_image "postgres:15").set_healthcheck
        (Sum.inl "pg_isready") "10s" "5s" 5 none true).config "healthcheck"
      = some (Val.dict [("disable", Val.bool true)]) ∧
    (("image" : String) ≠ "healthcheck") ∧
    dictGet (((BaseService.init "db").set_image "postgres:15").set_healthcheck
        (Sum.inl "pg_isready") "10s" "5s" 5 none true).config "image"
      = dictGet ((BaseService.init "db").set_image "postgres:15").config "image" :=
  ⟨(C7_set_healthcheck_disable ((BaseService.init "db").set_image "postgres:15")
      (Sum.inl "pg_isready") "10s" "5s" 5 none).2.1,
   by decide,
   (C7_set_healthcheck_disable ((BaseService.init "db").set_image "postgres:15")
      (Sum.inl "pg_isready") "10s" "5s" 5 none).2.2.1 "image" (by decide)⟩

/-- C6: when the descriptor's service name is already present in the
document's services, `add_service` fails with the already-exists error naming
that service, and both the in-memory document and the persisted file are
exactly the ones from before the call; when the name is absent (and the
`services` key, if present, holds a mapping), `add_service` appends exactly
that one entry to the services mapping and persists the full document. -/
theorem C6_add_service (st : ComposeState) (svc : BaseService) :
    (∀ cfg, dictGet (getServices st.doc) svc.name = some cfg →
      ComposeManager.add_service st svc
        = Except.error (ComposeErr.alreadyExists svc.name, st)) ∧
    ((dictGet st.doc "services" = none ∨ ∃ d, dictGet st.doc "services" = some (Val.dict d)) →
      dictGet (getServices st.doc) svc.name = none →
      ∃ st2, ComposeManager.add_service st svc = Except.ok st2 ∧
        getServices st2.doc = getServices st.doc ++ [(svc.name, Val.dict svc.config)] ∧
        (∀ k, k ≠ "services" → dictGet st2.doc k = dictGet st.doc k) ∧
        st2.file = st2.doc) := by
  constructor
  · intro cfg hcfg
    have hsome : (dictGet (getServices st.doc) svc.name).isSome := by simp [hcfg]
    have hkey := services_key_of_mem st.doc svc.name hsome
    have hens : ensure_services st.doc = st.doc :=
      ensure_services_of_get_some st.doc (by simp [hkey])
    unfold ComposeManager.add_service
    rw [hens, if_pos hsome]
  · intro hwf hnone
    have hens2 : getServices (ensure_services st.doc) = getServices st.doc :=
      getServices_ensure st.doc hwf
    refine ⟨ComposeState.mk (composeNewDoc st svc) (composeNewDoc st svc), ?_, ?_, ?_, rfl⟩
    · unfold ComposeManager.add_service
      rw [hens2, hnone]
      rfl
    · show getServices (composeNewDoc st svc) = _
      unfold composeNewDoc
      rw [getServices_dictInsert, hens2, dictInsert_of_get_none _ _ _ hnone]
    · intro k hk
      show dictGet (composeNewDoc st svc) k = dictGet st.doc k
      unfold composeNewDoc
      rw [dictGet_dictInsert]
      rw [if_neg hk]
      rcases hwf with h | ⟨d, h⟩
      · have h1 : ensure_services st.doc = dictInsert st.doc "services" (Val.dict []) := by
          unfold ensure_services
          rw [h]
        rw [h1, dictGet_dictInsert, if_neg hk]
      · rw [ensure_services_of_get_some st.doc (by simp [h])]

/-- C6 (witness): adding the service `web` to a document that already holds a
`web` entry fails with the already-exists error and returns the state
unchanged; adding it to a document with an empty services mapping appends the
single entry. -/
theorem C6_add_service_witness :
    dictGet (getServices [("services",
        Val.dict [("web", Val.dict [("image", Val.str "nginx")])])]) "web"
      = some (Val.dict [("image", Val.str "nginx")]) ∧
    ComposeManager.add_service
        (ComposeState.mk
          [("services", Val.dict [("web", Val.dict [("image", Val.str "nginx")])])]
          [("services", Val.dict [("web", Val.dict [("image", Val.str "nginx")])])])
        (BaseService.mk "web" [("image", Val.str "nginx")])
      = Except.error (ComposeErr.alreadyExists "web",
          ComposeState.mk
            [("services", Val.dict [("web", Val.dict [("image", Val.str "nginx")])])]
            [("services", Val.dict [("web", Val.dict [("image", Val.str "nginx")])])]) :=
  ⟨rfl,
   (C6_add_service
      (ComposeState.mk
        [("services", Val.dict [("web", Val.dict [("image", Val.str "nginx")])])]
        [("services", Val.dict [("web", Val.dict [("image", Val.str "nginx")])])])
      (BaseService.mk "web" [("image", Val.str "nginx")])).1
     (Val.dict [("image", Val.str "nginx")]) rfl⟩

/-- C10: when the descriptor's service name is present, `update_service`
succeeds, the updated entry holds exactly the descriptor's configuration,
every other entry of the services mapping keeps exactly its previous value,
every top-level key of the document other than `services` is unchanged, and
the persisted file equals the new in-memory document. -/
theorem C10_update_service_frame (st : ComposeState) (svc : BaseService) (cfg : Val)
    (h : dictGet (getServices st.doc) svc.name = some cfg) :
    ∃ st2, ComposeManager.update_service st svc = Except.ok st2 ∧
      dictGet (getServices st2.doc) svc.name = some (Val.dict svc.config) ∧
      (∀ n, n ≠ svc.name → dictGet (getServices st2.doc) n = dictGet (getServices st.doc) n) ∧
      (∀ k, k ≠ "services" → dictGet st2.doc k = dictGet st.doc k) ∧
      st2.file = st2.doc := by
  have hsome : (dictGet (getServices st.doc) svc.name).isSome := by simp [h]
  have hkey := services_key_of_mem st.doc svc.name hsome
  have hens : ensure_services st.doc = st.doc :=
    ensure_services_of_get_some st.doc (by simp [hkey])
  refine ⟨ComposeState.mk (composeNewDoc st svc) (composeNewDoc st svc), ?_, ?_, ?_, ?_, rfl⟩
  · unfold ComposeManager.update_service
    rw [hens, if_pos hsome]
  · show dictGet (getServices (composeNewDoc st svc)) svc.name = _
    unfold composeNewDoc
    rw [hens, getServices_dictInsert, dictGet_dictInsert]
    simp
  · intro n hn
    show dictGet (getServices (composeNewDoc st svc)) n = _
    unfold composeNewDoc
    rw [hens, getServices_dictInsert, dictGet_dictInsert, if_neg hn]
  · intro k hk
    show dictGet (composeNewDoc st svc) k = dictGet st.doc k
    unfold composeNewDoc
    rw [hens, dictGet_dictInsert, if_neg hk]

/-- C10 (witness): updating the `web` entry in a document holding `web` and
`db` services replaces the `web` configuration, keeps the `db` entry and the
`version` top-level key, and persists the result. -/
theorem C10_update_service_frame_witness :
    dictGet (getServices [("version", Val.str "3"),
        ("services", Val.dict [("web", Val.dict [("image", Val.str "nginx")]),
                               ("db", Val.dict [("image", Val.str "postgres:15")])])]) "web"
      = some (Val.dict [("image", Val.str "nginx")]) ∧
    ∃ st2, ComposeManager.update_service
        (ComposeState.mk
          [("version", Val.str "3"),
           ("services", Val.dict [("web", Val.dict [("image", Val.str "nginx")]),
                                  ("db", Val.dict [("image", Val.str "postgres:15")])])]
          [("version", Val.str "3"),
           ("services", Val.dict [("web", Val.dict [("image", Val.str "nginx")]),
                                  ("db", Val.dict [("image", Val.str "postgres:15")])])])
        (BaseService.mk "web" [("image", Val.str "caddy")])
      = Except.ok st2 ∧
      dictGet (getServices st2.doc) "web" = some (Val.dict [("image", Val.str "caddy")]) ∧
      (∀ n, n ≠ "web" → dictGet (getServices st2.doc) n
        = dictGet (getServices [("version", Val.str "3"),
            ("services", Val.dict [("web", Val.dict [("image", Val.str "nginx")]),
                                   ("db", Val.dict [("image", Val.str "postgres:15")])])]) n) ∧
      (∀ k, k ≠ "services" → dictGet st2.doc k
        = dictGet [("version", Val.str "3"),
            ("services", Val.dict [("web", Val.dict [("image", Val.str "nginx")]),
                                   ("db", Val.dict [("image", Val.str "postgres:15")])])] k) ∧
      st2.file = st2.doc :=
  ⟨rfl,
   C10_update_service_frame
     (ComposeState.mk
       [("version", Val.str "3"),
        ("services", Val.dict [("web", Val.dict [("image", Val.str "nginx")]),
                               ("db", Val.dict [("image", Val.str "postgres:15")])])]
       [("version", Val.str "3"),
        ("services", Val.dict [("web", Val.dict [("image", Val.str "nginx")]),
                               ("db", Val.dict [("image", Val.str "postgres:15")])])])
     (BaseService.mk "web" [("image", Val.str "caddy")])
     (Val.dict [("image", Val.str "nginx")]) rfl⟩

/-- C8: a host tuple is accepted by the validator only if every host either is
the exempt literal `localhost` (accepted without resolution when it is the
whole tuple) or resolves through DNS to exactly the machine's public address;
the accepted result is the tuple itself; and whenever some non-exempt host
fails resolution or the public-address comparison, the validator reports a
validation error. -/
theorem C8_validate_host (dns : String → Option String) (publicIp : String)
    (value : List String) :
    (∀ hosts, validate_host dns publicIp value = Except.ok hosts →
      hosts = value ∧
      ∀ h ∈ value, h = "localhost" ∨ ∃ ip, dns h = some ip ∧ ip = publicIp) ∧
    ((∃ h ∈ value, h ≠ "localhost" ∧ ¬ ∃ ip, dns h = some ip ∧ ip ≠ "" ∧ ip = publicIp) →
      ∃ msg, validate_host dns publicIp value = Except.error msg) := by
  constructor
  · intro hosts hok
    unfold validate_host at hok
    by_cases hv : value = ["localhost"]
    · rw [if_pos hv] at hok
      simp only [Except.ok.injEq] at hok
      refine ⟨hok.symm, ?_⟩
      intro h hmem
      rw [hv] at hmem
      simp at hmem
      exact Or.inl hmem
    · rw [if_neg hv] at hok
      cases hch : checkHosts dns publicIp value with
      | some msg =>
        rw [hch] at hok
        simp at hok
      | none =>
        rw [hch] at hok
        simp only [Except.ok.injEq] at hok
        refine ⟨hok.symm, ?_⟩
        intro h hmem
        obtain ⟨ip, hip, _, hippub⟩ :=
          (checkHosts_eq_none_iff dns publicIp value).mp hch h hmem
        exact Or.inr ⟨ip, hip, hippub⟩
  · rintro ⟨h0, hmem, hne, hfail⟩
    by_cases hv : value = ["localhost"]
    · exfalso
      rw [hv] at hmem
      simp at hmem
      exact hne hmem
    · cases hch : checkHosts dns publicIp value with
      | some msg =>
        refine ⟨msg, ?_⟩
        unfold validate_host
        rw [if_neg hv, hch]
      | none =>
        exact absurd ((checkHosts_eq_none_iff dns publicIp value).mp hch h0 hmem) hfail

/-- C8 (witness): a single host resolving to the machine's public address is
accepted and returned as-is. -/
theorem C8_validate_host_witness :
    validate_host (fun h => if h = "ok.example.com" then some "1.2.3.4" else none)
        "1.2.3.4" ["ok.example.com"] = Except.ok ["ok.example.com"] ∧
    (["ok.example.com"] = ["ok.example.com"] ∧
      ∀ h ∈ ["ok.example.com"], h = "localhost" ∨
        ∃ ip, (fun h2 => if h2 = "ok.example.com" then some "1.2.3.4" else none) h = some ip ∧
          ip = "1.2.3.4") :=
  ⟨rfl,
   (C8_validate_host (fun h => if h = "ok.example.com" then some "1.2.3.4" else none)
     "1.2.3.4" ["ok.example.com"]).1 ["ok.example.com"] rfl⟩

/-- C5: `from_dict` first collects every key outside the allow-list and, when
any exist, fails with the invalid-key error listing exactly those keys (no
typed-value check is reached); when all keys are valid, the first entry in
declaration order whose value violates its type constraint produces the
typed-value error naming that key, an expected kind, and the value's actual
kind; and a mapping with no violation is accepted in full. -/
theorem C5_from_dict_validation (name : String) (config : List (String × Val)) :
    ((∃ k, k ∈ dictKeys config ∧ k ∉ VALID_KEYS) →
      ∃ ks, BaseService.from_dict name config = Except.error (SvcErr.invalidKey ks) ∧
        ∀ k, k ∈ ks ↔ (k ∈ dictKeys config ∧ k ∉ VALID_KEYS)) ∧
    ((∀ k ∈ dictKeys config, k ∈ VALID_KEYS) →
      ∀ kv, config.find? (fun p => (checkEntry p.1 p.2).isSome) = some kv →
        ∃ exp, BaseService.from_dict name config
          = Except.error (SvcErr.invalidValueType kv.1 exp (typeName kv.2))) ∧
    ((∀ k ∈ dictKeys config, k ∈ VALID_KEYS) →
      (∀ kv ∈ config, checkEntry kv.1 kv.2 = none) →
      (dictKeys config).Nodup →
      BaseService.from_dict name config = Except.ok (BaseService.mk name config)) := by
  refine ⟨from_dict_invalid_keys name config, ?_, ?_⟩
  · intro hvalid kv hfind
    have hpred := List.find?_some hfind
    simp only [Option.isSome_iff_exists] at hpred
    obtain ⟨e, he⟩ := hpred
    obtain ⟨exp, hexp⟩ := checkEntry_shape kv.1 kv.2 e he
    refine ⟨exp, ?_⟩
    rw [from_dict_eq_setEntries name config hvalid,
      setEntries_error config (BaseService.init name) kv e hfind he, hexp]
  · intro h1 h2 h3
    exact from_dict_of_WF name config ⟨h3, h1, h2⟩

/-- C5 (witness): a mapping with the unknown key `imagee` is rejected with an
invalid-key error whose key list holds exactly that key. -/
theorem C5_from_dict_validation_witness :
    (("imagee" : String) ∈ dictKeys [("imagee", Val.str "x")] ∧
      ("imagee" : String) ∉ VALID_KEYS) ∧
    (∃ ks, BaseService.from_dict "svc" [("imagee", Val.str "x")]
        = Except.error (SvcErr.invalidKey ks) ∧
      ∀ k, k ∈ ks ↔ (k ∈ dictKeys [("imagee", Val.str "x")] ∧ k ∉ VALID_KEYS)) :=
  ⟨⟨by decide, by decide⟩,
   (C5_from_dict_validation "svc" [("imagee", Val.str "x")]).1
     ⟨"imagee", by decide, by decide⟩⟩

/-- C4: a descriptor built from the setters without error round-trips — its
`to_dict` name and configuration, fed to `from_dict`, reconstruct a service
whose `to_dict` is identical to the original mapping. -/
theorem C4_to_dict_from_dict_roundtrip (name : String) (steps : List SetStep)
    (svc : BaseService) (h : applySteps (BaseService.init name) steps = Except.ok svc) :
    ∃ svc2, BaseService.from_dict (svc.to_dict).1 (valDictEntries (svc.to_dict).2)
        = Except.ok svc2 ∧ svc2.to_dict = svc.to_dict := by
  have hwf0 : WFConfig (BaseService.init name).config := by
    refine ⟨?_, ?_, ?_⟩ <;> simp [BaseService.init, dictKeys]
  have hwf : WFConfig svc.config := WFConfig_applySteps steps (BaseService.init name) svc hwf0 h
  exact ⟨BaseService.mk svc.name svc.config, from_dict_of_WF svc.name svc.config hwf, rfl⟩

/-- C4 (witness): a concrete two-setter build round-trips through `to_dict`
and `from_dict`. -/
theorem C4_to_dict_from_dict_roundtrip_witness :
    applySteps (BaseService.init "web") [SetStep.image "nginx", SetStep.ports ["80:80"]]
      = Except.ok (BaseService.mk "web"
          [("image", Val.str "nginx"), ("ports", Val.list [Val.str "80:80"])]) ∧
    ∃ svc2, BaseService.from_dict
        ((BaseService.mk "web"
          [("image", Val.str "nginx"), ("ports", Val.list [Val.str "80:80"])]).to_dict).1
        (valDictEntries ((BaseService.mk "web"
          [("image", Val.str "nginx"), ("ports", Val.list [Val.str "80:80"])]).to_dict).2)
        = Except.ok svc2 ∧
      svc2.to_dict = (BaseService.mk "web"
          [("image", Val.str "nginx"), ("ports", Val.list [Val.str "80:80"])]).to_dict :=
  ⟨rfl,
   C4_to_dict_from_dict_roundtrip "web" [SetStep.image "nginx", SetStep.ports ["80:80"]]
     (BaseService.mk "web" [("image", Val.str "nginx"), ("ports", Val.list [Val.str "80:80"])])
     rfl⟩

/-- C1: counterexample — for the service named "live", the first of the four
labels appended by `add_traefik` is the fixed string "traefik.enable=true",
which does not reference the service name, so the four appended routing
labels do not each reference the name. -/
theorem C1_counterexample :
    traefikLabels "live" "example.com" "8069"
      = ["traefik.enable=true",
         "traefik.http.routers.live.rule=Host(`example.com`)",
         "traefik.http.routers.live.entrypoints=web",
         "traefik.http.services.live.loadbalancer.server.port=8069"] ∧
    dictGet ((BaseService.init "live").add_traefik "example.com" "8069").config "labels"
      = some (Val.list ((traefikLabels "live" "example.com" "8069").map Val.str)) ∧
    strMentions "traefik.enable=true" "live" = false :=
  ⟨rfl, rfl, rfl⟩

/-- C1 (amended, spec-modelled): `add_traefik(h, p)` appends exactly four
routing label strings to the service's labels — the fixed traefik-enable
label, a Host-rule label binding `h`, an entrypoint label, and a loadbalancer
server-port label binding `p`, the latter three each referencing the service
name `n` — and changes nothing else in the descriptor. -/
theorem C1_add_traefik (svc : BaseService) (host port_mapping : String) :
    (svc.add_traefik host port_mapping).name = svc.name ∧
    dictGet (svc.add_traefik host port_mapping).config "labels"
      = some (Val.list (currentLabels svc
          ++ (traefikLabels svc.name host port_mapping).map Val.str)) ∧
    (traefikLabels svc.name host port_mapping).length = 4 ∧
    (∀ k, k ≠ "labels" →
      dictGet (svc.add_traefik host port_mapping).config k = dictGet svc.config k) ∧
    strMentions ("traefik.http.routers." ++ svc.name ++ ".rule=Host(`" ++ host ++ "`)")
      svc.name = true ∧
    strMentions ("traefik.http.routers." ++ svc.name ++ ".rule=Host(`" ++ host ++ "`)")
      host = true ∧
    strMentions ("traefik.http.routers." ++ svc.name ++ ".entrypoints=web") svc.name = true ∧
    strMentions ("traefik.http.services." ++ svc.name ++ ".loadbalancer.server.port="
      ++ port_mapping) svc.name = true ∧
    strMentions ("traefik.http.services." ++ svc.name ++ ".loadbalancer.server.port="
      ++ port_mapping) port_mapping = true := by
  refine ⟨rfl, ?_, rfl, ?_, ?_, ?_, ?_, ?_, ?_⟩
  · show dictGet (dictInsert svc.config "labels" (Val.list (currentLabels svc
        ++ (traefikLabels svc.name host port_mapping).map Val.str))) "labels" = _
    rw [dictGet_dictInsert]
    simp
  · intro k hk
    show dictGet (dictInsert svc.config "labels" (Val.list (currentLabels svc
        ++ (traefikLabels svc.name host port_mapping).map Val.str))) k = _
    rw [dictGet_dictInsert, if_neg hk]
  · exact strMentions_parts _ svc.name ("traefik.http.routers.").data
      ((".rule=Host(`").data ++ (host.data ++ ("`)").data))
      (by simp [String.data_append, List.append_assoc])
  · exact strMentions_parts _ host
      (("traefik.http.routers.").data ++ (svc.name.data ++ (".rule=Host(`").data))
      (("`)").data)
      (by simp [String.data_append, List.append_assoc])
  · exact strMentions_parts _ svc.name ("traefik.http.routers.").data
      ((".entrypoints=web").data)
      (by simp [String.data_append, List.append_assoc])
  · exact strMentions_parts _ svc.name ("traefik.http.services.").data
      ((".loadbalancer.server.port=").data ++ port_mapping.data)
      (by simp [String.data_append, List.append_assoc])
  · exact strMentions_parts _ port_mapping
      (("traefik.http.services.").data
        ++ (svc.name.data ++ (".loadbalancer.server.port=").data))
      ([])
      (by simp [String.data_append, List.append_assoc])

/-- C1 (witness): on a concrete service with an image entry, the four labels
are appended and the image entry is untouched. -/
theorem C1_add_traefik_witness :
    (("image" : String) ≠ "labels") ∧
    dictGet (((BaseService.init "live").set_image "nginx").add_traefik
        "example.com" "8069").config "image"
      = dictGet ((BaseService.init "live").set_image "nginx").config "image" ∧
    dictGet (((BaseService.init "live").set_image "nginx").add_traefik
        "example.com" "8069").config "labels"
      = some (Val.list (currentLabels ((BaseService.init "live").set_image "nginx")
          ++ (traefikLabels "live" "example.com" "8069").map Val.str)) :=
  ⟨by decide,
   (C1_add_traefik ((BaseService.init "live").set_image "nginx")
     "example.com" "8069").2.2.2.1 "image" (by decide),
   (C1_add_traefik ((BaseService.init "live").set_image "nginx")
     "example.com" "8069").2.1⟩

end AuraOdoo
